import Mathlib

/-!
Shallow embedding of the CYThread worker-pool runtime (namespace `cry` in the
C++ source).  Pure data is translated to Lean structures; the stateful pool
and worker operations become explicit state-passing functions; the couple of
fallible paths (a task body that throws) return `Except`.  Object-task handles
(`ICYIThreadableObject*`) are modelled as `Nat` identities wrapped in `Option`
(`none` is the null pointer).  Machine integers that matter (the `uint32_t`
affinity mask) are `Nat` with an explicit `% 2 ^ 32`.
-/

/-- Thread status enum from `CYThreadDefine.hpp` (`CYThreadStatus`). -/
inductive CYThreadStatus
  | STATUS_THREAD_NOT_EXECUTING
  | STATUS_THREAD_EXECUTING
  | STATUS_THREAD_PURGING
  | STATUS_THREAD_PAUSING
  | STATUS_THREAD_NONE
deriving DecidableEq, Repr

/-- Thread priority enum from `CYThreadDefine.hpp` (`CYThreadPriority`). -/
inductive CYThreadPriority
  | PRIORITY_THREAD_LOW
  | PRIORITY_THREAD_NORMAL
  | PRIORITY_THREAD_HIGH
  | PRIORITY_THREAD_CRITICAL
  | PRIORITY_THREAD_TIME_CRITICAL
deriving DecidableEq, Repr

/-- Processor affinity enum from `CYThreadDefine.hpp` (`CYProcessorAffinity`). -/
inductive CYProcessorAffinity
  | AFFINITY_PROCESSOR_SOFT
  | AFFINITY_PROCESSOR_HARD
  | AFFINITY_PROCESSOR_UNDEFINED
deriving DecidableEq, Repr

/-- Callback task struct from `CYThreadDefine.hpp` (`CYThreadTask`).  The
`std::function` callback is modelled by an identifier (`none` is a null
callback, the `{ nullptr }` reset value); `pArgList` is an opaque pointer. -/
structure CYThreadTask where
  funTaskToExecute : Option Nat := none
  pArgList : Option Nat := none
  bDelete : Bool := false
deriving DecidableEq, Repr

/-- Execution-properties value object from `ICYThread.hpp`
(`CYThreadExecutionProps`).  The mask field is a `uint32_t` in the source. -/
structure CYThreadExecutionProps where
  nTasksProcessAffinityMask : Nat := 0
  eTasksProcessorAffinity : CYProcessorAffinity := .AFFINITY_PROCESSOR_SOFT
  eTasksPriority : CYThreadPriority := .PRIORITY_THREAD_NORMAL
  nTasksIdealCore : Int := 0
deriving DecidableEq, Repr

/-- `CYThreadExecutionProps::GetProcessorAffinity` (ICYThread.hpp): negative
core -> 0; core at or beyond the logical CPU count -> 0; otherwise
`1u << core` as a `uint32_t`.  The logical CPU count (read from
`GetSystemInfo` / `sysconf` in the source) is passed as a parameter. -/
def GetProcessorAffinity (nMaxCores : Int) (nDesiredCore : Int) : Nat :=
  if nDesiredCore < 0 then 0
  else if nMaxCores ≤ nDesiredCore then 0
  else (1 <<< nDesiredCore.toNat) % 2 ^ 32

/-- `CYThreadExecutionProps::CreateTasksProcessorAffinity` (ICYThread.hpp):
stores `GetProcessorAffinity(m_nTasksIdealCore)` into the mask field. -/
def CreateTasksProcessorAffinity (nMaxCores : Int) (props : CYThreadExecutionProps) :
    CYThreadExecutionProps :=
  { props with
    nTasksProcessAffinityMask := GetProcessorAffinity nMaxCores props.nTasksIdealCore }

/-- Worker state from `CYThread.hpp` (`CYThread`): the fields the pool and the
worker loop read or write.  A fresh worker is idle with no pending task. -/
structure CYThread where
  eThreadAvail : CYThreadStatus := .STATUS_THREAD_NOT_EXECUTING
  bSuspended : Bool := false
  pThreadsObject : Option Nat := none
  pNextThreadsObject : Option Nat := none
  nChangedThreadsObject : Int := 0
  objThreadsTask : CYThreadTask := {}
  objNextThreadsTask : CYThreadTask := {}
  nChangedThreadsTask : Int := 0
deriving DecidableEq, Repr

/-- `CYThread::SetThreadAvail`. -/
def SetThreadAvail (status : CYThreadStatus) (w : CYThread) : CYThread :=
  { w with eThreadAvail := status }

/-- `CYThread::ResumeThread`: clear the suspended flag (and notify). -/
def ResumeThread (w : CYThread) : CYThread :=
  { w with bSuspended := false }

/-- `CYThread::SuspendThread`: set the suspended flag. -/
def SuspendThread (w : CYThread) : CYThread :=
  { w with bSuspended := true }

/-- `CYThread::ChangeThreadPropertiesandResume(ICYIThreadableObject*)`:
bump the object mailbox version, publish the next object, mark the worker
EXECUTING and unpark it. -/
def ChangeThreadPropertiesandResumeObject (pAttributes : Nat) (w : CYThread) : CYThread :=
  ResumeThread (SetThreadAvail .STATUS_THREAD_EXECUTING
    { w with
      nChangedThreadsObject := w.nChangedThreadsObject + 1
      pNextThreadsObject := some pAttributes })

/-- `CYThread::ChangeThreadPropertiesandResume(const CYThreadTask&)`:
bump the callback mailbox version, publish the next callback, mark the worker
EXECUTING and unpark it. -/
def ChangeThreadPropertiesandResumeTask (objAttributes : CYThreadTask) (w : CYThread) : CYThread :=
  ResumeThread (SetThreadAvail .STATUS_THREAD_EXECUTING
    { w with
      nChangedThreadsTask := w.nChangedThreadsTask + 1
      objNextThreadsTask := objAttributes })

/-- Pool state from `CYThreadPool.hpp`: the four submission queues (the front
of each list is the `std::list` front), the worker list, and the two
`CYThreadPoolProperties` fields the pool operations consult
(`m_nMaxTasks`, `m_bTaskPoolLock`). -/
structure CYThreadPool where
  lstThread : List CYThread := []
  lstTask : List CYThreadTask := []
  lstTaskMiss : List CYThreadTask := []
  lstTTask : List Nat := []
  lstTTaskMiss : List Nat := []
  nMaxTasks : Nat := 25
  bTaskPoolLock : Bool := false
deriving DecidableEq, Repr

/-- `CYThreadPool::SubmitTask(ICYIThreadableObject*)`: null handle -> false;
otherwise accept iff the pool lock is clear and `m_lstTTask.size() <=
m_nMaxTasks`, pushing the handle to the FRONT of the fresh object queue. -/
def SubmitTaskObject (p : CYThreadPool) (pInvokingObject : Option Nat) :
    Bool × CYThreadPool :=
  match pInvokingObject with
  | none => (false, p)
  | some o =>
    if p.bTaskPoolLock = false ∧ p.lstTTask.length ≤ p.nMaxTasks then
      (true, { p with lstTTask := o :: p.lstTTask })
    else
      (false, p)

/-- `CYThreadPool::SubmitTask(const CYThreadTask&)`: accept iff the pool lock
is clear and `m_lstTask.size() <= m_nMaxTasks`, pushing to the front of the
fresh callback queue. -/
def SubmitTaskCallback (p : CYThreadPool) (objTask : CYThreadTask) :
    Bool × CYThreadPool :=
  if p.bTaskPoolLock = false ∧ p.lstTask.length ≤ p.nMaxTasks then
    (true, { p with lstTask := objTask :: p.lstTask })
  else
    (false, p)

/-- `CYThreadPool::IsPoolEmpty`: the source tests `m_lstTask`, `m_lstTTask`
and `m_lstTTaskMiss` only (the missed callback queue `m_lstTaskMiss` is not
consulted). -/
def IsPoolEmpty (p : CYThreadPool) : Bool :=
  p.lstTask.isEmpty && p.lstTTask.isEmpty && p.lstTTaskMiss.isEmpty

/-- `CYThreadPool::AreAnyThreadsWorking`: `std::any_of` over the workers,
true when some worker status differs from NOT_EXECUTING. -/
def AreAnyThreadsWorking (p : CYThreadPool) : Bool :=
  p.lstThread.any fun thread =>
    decide (thread.eThreadAvail ≠ CYThreadStatus.STATUS_THREAD_NOT_EXECUTING)

/-- `CYThreadPool::GetThreadAvailableCount`: count workers whose status is
NOT_EXECUTING or PURGING. -/
def GetThreadAvailableCount (p : CYThreadPool) : Nat :=
  p.lstThread.countP fun thread =>
    decide (thread.eThreadAvail = CYThreadStatus.STATUS_THREAD_NOT_EXECUTING ∨
      thread.eThreadAvail = CYThreadStatus.STATUS_THREAD_PURGING)

/-- `CYThreadPool::GetSpecificThreadStatusCount`. -/
def GetSpecificThreadStatusCount (p : CYThreadPool) (eThreadType : CYThreadStatus) : Nat :=
  p.lstThread.countP fun thread => decide (thread.eThreadAvail = eThreadType)

/-- `CYThreadPool::SuspendAllWorkingThreads`: set the task-pool lock, then
suspend every worker whose status differs from NOT_EXECUTING. -/
def SuspendAllWorkingThreads (p : CYThreadPool) : CYThreadPool :=
  { p with
    bTaskPoolLock := true
    lstThread := p.lstThread.map fun thread =>
      if thread.eThreadAvail ≠ CYThreadStatus.STATUS_THREAD_NOT_EXECUTING then
        SuspendThread thread
      else thread }

/-- `CYThreadPool::PauseAllWorkingThreads`: suspend every worker whose status
differs from NOT_EXECUTING.  The source does NOT touch the task-pool lock
here. -/
def PauseAllWorkingThreads (p : CYThreadPool) : CYThreadPool :=
  { p with
    lstThread := p.lstThread.map fun thread =>
      if thread.eThreadAvail ≠ CYThreadStatus.STATUS_THREAD_NOT_EXECUTING then
        SuspendThread thread
      else thread }

/-- `CYThreadPool::ResumeAllWorkingThreads`: resume (clear suspension of)
every worker whose status differs from NOT_EXECUTING. -/
def ResumeAllWorkingThreads (p : CYThreadPool) : CYThreadPool :=
  { p with
    lstThread := p.lstThread.map fun thread =>
      if thread.eThreadAvail ≠ CYThreadStatus.STATUS_THREAD_NOT_EXECUTING then
        ResumeThread thread
      else thread }

/-- Scan for the first worker currently holding the given object handle and
suspend it (the loop body of `CYThreadPool::PauseWorkingThread`, which
breaks after the first match). -/
def suspendFirstMatching : List CYThread → Nat → List CYThread
  | [], _ => []
  | w :: rest, o =>
    if w.pThreadsObject = some o then SuspendThread w :: rest
    else w :: suspendFirstMatching rest o

/-- `CYThreadPool::PauseWorkingThread`: null handle -> no-op; otherwise
suspend the first worker whose `GetThreadObject()` equals the handle. -/
def PauseWorkingThread (p : CYThreadPool) (pInvokingObject : Option Nat) : CYThreadPool :=
  match pInvokingObject with
  | none => p
  | some o => { p with lstThread := suspendFirstMatching p.lstThread o }

/-- Status of the first worker whose `GetThreadObject()` equals the handle
(shared scan of `GetWorkingThreadStatus` and `WaitForSingleObject`);
`none` when no worker holds the object. -/
def findThreadStatus : List CYThread → Nat → Option CYThreadStatus
  | [], _ => none
  | w :: rest, o =>
    if w.pThreadsObject = some o then some w.eThreadAvail
    else findThreadStatus rest o

/-- `CYThreadPool::GetWorkingThreadStatus`: null handle -> NONE; otherwise the
status of the first worker holding the object, or NONE when not found. -/
def GetWorkingThreadStatus (p : CYThreadPool) (pInvokingObject : Option Nat) :
    CYThreadStatus :=
  match pInvokingObject with
  | none => .STATUS_THREAD_NONE
  | some o =>
    match findThreadStatus p.lstThread o with
    | some st => st
    | none => .STATUS_THREAD_NONE

/-- One polling loop of `CYThreadPool::WaitForSingleObject` for a non-null
handle.  `schedule k` is the worker list observed at the k-th poll and
`elapsedAt k` the wall-clock milliseconds elapsed at the k-th timeout check
(both abstract the real clock and the concurrent pool).  Exit codes as in the
source: object's worker back to NOT_EXECUTING or object not found -> `some 0`;
elapsed at least `timeout` -> `some 1`; `none` when the poll fuel runs out
with the loop still waiting. -/
def waitLoop (schedule : Nat → List CYThread) (elapsedAt : Nat → Nat)
    (o timeout : Nat) : Nat → Nat → Option Nat
  | _, 0 => none
  | k, fuel + 1 =>
    match findThreadStatus (schedule k) o with
    | some st =>
      if st = CYThreadStatus.STATUS_THREAD_NOT_EXECUTING then some 0
      else if timeout ≤ elapsedAt k then some 1
      else waitLoop schedule elapsedAt o timeout (k + 1) fuel
    | none => some 0

/-- `CYThreadPool::WaitForSingleObject`: null handle -> immediate 0,
otherwise the polling loop starting at observation 0. -/
def WaitForSingleObjectPool (schedule : Nat → List CYThread) (elapsedAt : Nat → Nat)
    (pInvokingObject : Option Nat) (timeout : Nat) (fuel : Nat) : Option Nat :=
  match pInvokingObject with
  | none => some 0
  | some o => waitLoop schedule elapsedAt o timeout 0 fuel

/-- Give the first worker with status NOT_EXECUTING to `assign`
(`CYThreadPool::GetAvailThread` followed by the dispatch call on the found
worker); `none` when no worker is idle. -/
def dispatchFirstAvail (assign : CYThread → CYThread) :
    List CYThread → Option (List CYThread)
  | [] => none
  | w :: rest =>
    if w.eThreadAvail = CYThreadStatus.STATUS_THREAD_NOT_EXECUTING then
      some (assign w :: rest)
    else
      (dispatchFirstAvail assign rest).map fun ws => w :: ws

/-- Missed-queue pass of `CYThreadPool::processObjectTaskList`: walk the queue
front-to-back; a dispatched item is erased, an undispatched item stays in
place.  Returns the workers, the kept items (in order) and the dispatch
trace (in dispatch order). -/
def processQueueKeep (assign : α → CYThread → CYThread) :
    List CYThread → List α → List CYThread × List α × List α
  | ws, [] => (ws, [], [])
  | ws, o :: rest =>
    match dispatchFirstAvail (assign o) ws with
    | some ws' =>
      let r := processQueueKeep assign ws' rest
      (r.1, r.2.1, o :: r.2.2)
    | none =>
      let r := processQueueKeep assign ws rest
      (r.1, o :: r.2.1, r.2.2)

/-- Fresh-queue pass of `CYThreadPool::processObjectTaskList`: walk the queue
front-to-back; a dispatched item is erased, an undispatched item is pushed to
the FRONT of the missed queue and erased.  Returns the workers, the final
missed queue and the dispatch trace. -/
def processQueueMove (assign : α → CYThread → CYThread) :
    List CYThread → List α → List α → List CYThread × List α × List α
  | ws, miss, [] => (ws, miss, [])
  | ws, miss, o :: rest =>
    match dispatchFirstAvail (assign o) ws with
    | some ws' =>
      let r := processQueueMove assign ws' miss rest
      (r.1, r.2.1, o :: r.2.2)
    | none => processQueueMove assign ws (o :: miss) rest

/-- `CYThreadPool::PromoteCleanupToAvailability`: every PURGING worker becomes
NOT_EXECUTING. -/
def PromoteCleanupToAvailability (ws : List CYThread) : List CYThread :=
  ws.map fun thread =>
    if thread.eThreadAvail = CYThreadStatus.STATUS_THREAD_PURGING then
      SetThreadAvail CYThreadStatus.STATUS_THREAD_NOT_EXECUTING thread
    else thread

/-- One dispatcher sweep, `CYThreadPool::processObjectTaskList`: missed then
fresh object queue, missed then fresh callback queue, then the cleanup
promotion.  Besides the new pool state it returns the object dispatch trace
and the callback dispatch trace of the sweep. -/
def processObjectTaskList (p : CYThreadPool) :
    CYThreadPool × List Nat × List CYThreadTask :=
  let r1 := processQueueKeep ChangeThreadPropertiesandResumeObject p.lstThread p.lstTTaskMiss
  let r2 := processQueueMove ChangeThreadPropertiesandResumeObject r1.1 r1.2.1 p.lstTTask
  let r3 := processQueueKeep ChangeThreadPropertiesandResumeTask r2.1 p.lstTaskMiss
  let r4 := processQueueMove ChangeThreadPropertiesandResumeTask r3.1 r3.2.1 p.lstTask
  ({ p with
      lstThread := PromoteCleanupToAvailability r4.1
      lstTTask := []
      lstTTaskMiss := r2.2.1
      lstTask := []
      lstTaskMiss := r4.2.1 },
   r1.2.2 ++ r2.2.2,
   r3.2.2 ++ r4.2.2)

/-- A run of consecutive `SubmitTask(ICYIThreadableObject*)` calls with no
intervening dispatch: returns the list of boolean results and the final pool
state. -/
def submitSeqObj (p : CYThreadPool) : List Nat → List Bool × CYThreadPool
  | [] => ([], p)
  | o :: rest =>
    let r := SubmitTaskObject p (some o)
    let rr := submitSeqObj r.2 rest
    (r.1 :: rr.1, rr.2)

/-- One iteration of the worker loop `CYThread::ExecuteThread`: take a
published object (then callback) out of its mailbox, run it, mark PURGING,
clear the slot, then park.  `runObj` / `runCb` give each task body's
behaviour; a task body that throws is `Except.error ()`, and, as in the
source, NO handler surrounds the call inside the `noexcept` loop, so the
error propagates out of the iteration. -/
def executeIteration (runObj : Nat → Except Unit Unit) (runCb : Nat → Except Unit Unit)
    (w0 : CYThread) : Except Unit CYThread :=
  let w1 :=
    if w0.nChangedThreadsObject ≠ 0 then
      { w0 with
        pThreadsObject := w0.pNextThreadsObject
        nChangedThreadsObject := w0.nChangedThreadsObject - 1
        pNextThreadsObject := none }
    else w0
  let w2 :=
    if w1.nChangedThreadsTask ≠ 0 then
      { w1 with
        objThreadsTask := w1.objNextThreadsTask
        nChangedThreadsTask := w1.nChangedThreadsTask - 1
        objNextThreadsTask := {} }
    else w1
  do
    let w3 ←
      match w2.pThreadsObject with
      | some o => do
        runObj o
        pure { w2 with
          eThreadAvail := CYThreadStatus.STATUS_THREAD_PURGING
          pThreadsObject := none }
      | none => pure w2
    let w4 ←
      match w3.objThreadsTask.funTaskToExecute with
      | some f => do
        runCb f
        pure { w3 with
          eThreadAvail := CYThreadStatus.STATUS_THREAD_PURGING
          objThreadsTask := {} }
      | none => pure w3
    pure { w4 with bSuspended := true }

/-- Windows priority mapping of the worker class the pool instantiates
(`CYThread::ChangeThreadsExecutionProperties`, CYThread.cpp), as the
`SetThreadPriority` argument: LOWEST = -2, NORMAL = 0, ABOVE_NORMAL = 1,
HIGHEST = 2, TIME_CRITICAL = 15. -/
def windowsPriorityCYThread : CYThreadPriority → Int
  | .PRIORITY_THREAD_LOW => -2
  | .PRIORITY_THREAD_NORMAL => 0
  | .PRIORITY_THREAD_HIGH => 1
  | .PRIORITY_THREAD_CRITICAL => 2
  | .PRIORITY_THREAD_TIME_CRITICAL => 15

/-- Linux priority mapping of `CYThread::ChangeThreadsExecutionProperties`
(CYThread.cpp): computed from `sched_get_priority_min` / `_max` of the
current policy, passed here as `pmin` / `pmax`.  `Int.tdiv` is the C
truncating division. -/
def linuxPriorityCYThread (pmin pmax : Int) : CYThreadPriority → Int
  | .PRIORITY_THREAD_LOW => pmin
  | .PRIORITY_THREAD_NORMAL => Int.tdiv (pmax + pmin) 2
  | .PRIORITY_THREAD_HIGH => pmax - 1
  | .PRIORITY_THREAD_CRITICAL => pmax - 1
  | .PRIORITY_THREAD_TIME_CRITICAL => pmax

/-- Windows priority mapping of the unused duplicate worker variant
(`CYThreadWindows::ChangeThreadsExecutionProperties`, CYThreadWindows.cpp):
BELOW_NORMAL = -1, NORMAL = 0, ABOVE_NORMAL = 1, HIGHEST = 2,
TIME_CRITICAL = 15. -/
def windowsPriorityCYThreadWindows : CYThreadPriority → Int
  | .PRIORITY_THREAD_LOW => -1
  | .PRIORITY_THREAD_NORMAL => 0
  | .PRIORITY_THREAD_HIGH => 1
  | .PRIORITY_THREAD_CRITICAL => 2
  | .PRIORITY_THREAD_TIME_CRITICAL => 15

/-- Linux priority mapping of `CYThreadWindows::ChangeThreadsExecutionProperties`
(CYThreadWindows.cpp): fixed SCHED_OTHER values. -/
def linuxPriorityCYThreadWindows : CYThreadPriority → Int
  | .PRIORITY_THREAD_LOW => 0
  | .PRIORITY_THREAD_NORMAL => 1
  | .PRIORITY_THREAD_HIGH => 5
  | .PRIORITY_THREAD_CRITICAL => 10
  | .PRIORITY_THREAD_TIME_CRITICAL => 20

/-- Modelled from the spec: the claimed Windows table, LOW -> below-normal
(-1), NORMAL -> normal (0), HIGH -> above-normal (1), CRITICAL -> highest
(2), TIME_CRITICAL -> time-critical (15). -/
def specWindowsPriorityTable : CYThreadPriority → Int
  | .PRIORITY_THREAD_LOW => -1
  | .PRIORITY_THREAD_NORMAL => 0
  | .PRIORITY_THREAD_HIGH => 1
  | .PRIORITY_THREAD_CRITICAL => 2
  | .PRIORITY_THREAD_TIME_CRITICAL => 15

/-- Modelled from the spec: the claimed Linux SCHED_OTHER table
{0, 1, 5, 10, 20}. -/
def specLinuxPriorityTable : CYThreadPriority → Int
  | .PRIORITY_THREAD_LOW => 0
  | .PRIORITY_THREAD_NORMAL => 1
  | .PRIORITY_THREAD_HIGH => 5
  | .PRIORITY_THREAD_CRITICAL => 10
  | .PRIORITY_THREAD_TIME_CRITICAL => 20

/-- Number of workers a `GetAvailThread` scan can still claim. -/
def countNotExecuting (ws : List CYThread) : Nat :=
  ws.countP fun w =>
    decide (w.eThreadAvail = CYThreadStatus.STATUS_THREAD_NOT_EXECUTING)

/-! ## Helper lemmas -/

lemma submitTaskObject_true_iff (p : CYThreadPool) (o : Nat) :
    (SubmitTaskObject p (some o)).1 = true ↔
      p.bTaskPoolLock = false ∧ p.lstTTask.length ≤ p.nMaxTasks := by
  unfold SubmitTaskObject
  split_ifs with h <;> simp [h]

lemma submitTaskObject_true_state (p : CYThreadPool) (o : Nat)
    (h : (SubmitTaskObject p (some o)).1 = true) :
    (SubmitTaskObject p (some o)).2.lstTTask = o :: p.lstTTask ∧
    (SubmitTaskObject p (some o)).2.nMaxTasks = p.nMaxTasks := by
  unfold SubmitTaskObject at h ⊢
  split_ifs at h ⊢ with hc
  exact ⟨rfl, rfl⟩

lemma submitSeq_bound : ∀ (objs : List Nat) (p : CYThreadPool), objs ≠ [] →
    (∀ b ∈ (submitSeqObj p objs).1, b = true) →
    p.lstTTask.length + objs.length ≤ p.nMaxTasks + 1 := by
  intro objs
  induction objs with
  | nil => intro p h _; exact absurd rfl h
  | cons o rest ih =>
    intro p _ hall
    have h1 : (SubmitTaskObject p (some o)).1 = true := by
      apply hall
      simp [submitSeqObj]
    have hcond := (submitTaskObject_true_iff p o).mp h1
    have hstate := submitTaskObject_true_state p o h1
    by_cases hr : rest = []
    · subst hr
      simp only [List.length_cons, List.length_nil]
      omega
    · have hall' : ∀ b ∈ (submitSeqObj (SubmitTaskObject p (some o)).2 rest).1, b = true := by
        intro b hb
        apply hall
        simp only [submitSeqObj, List.mem_cons]
        exact Or.inr hb
      have hbound := ih (SubmitTaskObject p (some o)).2 hr hall'
      rw [hstate.1, hstate.2] at hbound
      simp only [List.length_cons] at hbound ⊢
      omega

lemma dispatchFirstAvail_eq_none (assign : CYThread → CYThread) (ws : List CYThread) :
    dispatchFirstAvail assign ws = none ↔ countNotExecuting ws = 0 := by
  induction ws with
  | nil => simp [dispatchFirstAvail, countNotExecuting]
  | cons w rest ih =>
    by_cases hw : w.eThreadAvail = CYThreadStatus.STATUS_THREAD_NOT_EXECUTING
    · simp [dispatchFirstAvail, countNotExecuting, hw, List.countP_cons]
    · simp only [dispatchFirstAvail, if_neg hw, Option.map_eq_none', countNotExecuting,
        List.countP_cons, decide_eq_true_eq, if_neg hw, add_zero] at ih ⊢
      exact ih

lemma dispatchFirstAvail_some_count (assign : CYThread → CYThread)
    (hA : ∀ w, (assign w).eThreadAvail = CYThreadStatus.STATUS_THREAD_EXECUTING) :
    ∀ (ws ws' : List CYThread), dispatchFirstAvail assign ws = some ws' →
      countNotExecuting ws' + 1 = countNotExecuting ws := by
  intro ws
  induction ws with
  | nil => intro ws' h; simp [dispatchFirstAvail] at h
  | cons w rest ih =>
    intro ws' h
    by_cases hw : w.eThreadAvail = CYThreadStatus.STATUS_THREAD_NOT_EXECUTING
    · rw [dispatchFirstAvail, if_pos hw, Option.some_inj] at h
      subst h
      simp [countNotExecuting, List.countP_cons, hw, hA w]
    · rw [dispatchFirstAvail, if_neg hw, Option.map_eq_some'] at h
      obtain ⟨ws'', hws'', hcons⟩ := h
      subst hcons
      have := ih ws'' hws''
      simp only [countNotExecuting, List.countP_cons, decide_eq_true_eq, if_neg hw,
        add_zero] at this ⊢
      exact this

lemma processQueueKeep_all (assign : α → CYThread → CYThread)
    (hA : ∀ (a : α) (w : CYThread),
      (assign a w).eThreadAvail = CYThreadStatus.STATUS_THREAD_EXECUTING) :
    ∀ (q : List α) (ws : List CYThread), q.length ≤ countNotExecuting ws →
      (processQueueKeep assign ws q).2.1 = [] ∧
      (processQueueKeep assign ws q).2.2 = q ∧
      countNotExecuting (processQueueKeep assign ws q).1 + q.length = countNotExecuting ws := by
  intro q
  induction q with
  | nil =>
    intro ws _
    exact ⟨rfl, rfl, by simp [processQueueKeep]⟩
  | cons o rest ih =>
    intro ws h
    simp only [List.length_cons] at h
    have hne : dispatchFirstAvail (assign o) ws ≠ none := by
      rw [Ne, dispatchFirstAvail_eq_none]
      omega
    obtain ⟨ws', hws'⟩ := Option.ne_none_iff_exists'.mp hne
    have hcount := dispatchFirstAvail_some_count (assign o) (hA o) ws ws' hws'
    have ihr := ih ws' (by omega)
    simp only [processQueueKeep, hws']
    exact ⟨ihr.1, by rw [ihr.2.1], by rw [List.length_cons]; omega⟩

lemma processQueueMove_all (assign : α → CYThread → CYThread)
    (hA : ∀ (a : α) (w : CYThread),
      (assign a w).eThreadAvail = CYThreadStatus.STATUS_THREAD_EXECUTING) :
    ∀ (q : List α) (ws : List CYThread) (miss : List α), q.length ≤ countNotExecuting ws →
      (processQueueMove assign ws miss q).2.1 = miss ∧
      (processQueueMove assign ws miss q).2.2 = q ∧
      countNotExecuting (processQueueMove assign ws miss q).1 + q.length =
        countNotExecuting ws := by
  intro q
  induction q with
  | nil =>
    intro ws miss _
    exact ⟨rfl, rfl, by simp [processQueueMove]⟩
  | cons o rest ih =>
    intro ws miss h
    simp only [List.length_cons] at h
    have hne : dispatchFirstAvail (assign o) ws ≠ none := by
      rw [Ne, dispatchFirstAvail_eq_none]
      omega
    obtain ⟨ws', hws'⟩ := Option.ne_none_iff_exists'.mp hne
    have hcount := dispatchFirstAvail_some_count (assign o) (hA o) ws ws' hws'
    have ihr := ih ws' miss (by omega)
    simp only [processQueueMove, hws']
    exact ⟨ihr.1, by rw [ihr.2.1], by rw [List.length_cons]; omega⟩

lemma any_not_executing_iff (l : List CYThread) :
    (l.any fun w =>
      decide (w.eThreadAvail ≠ CYThreadStatus.STATUS_THREAD_NOT_EXECUTING)) = true ↔
      l.length ≠ l.countP fun w =>
        decide (w.eThreadAvail = CYThreadStatus.STATUS_THREAD_NOT_EXECUTING) := by
  rw [List.any_eq_true]
  constructor
  · rintro ⟨w, hwmem, hne⟩ h
    rw [eq_comm, List.countP_eq_length] at h
    have hall := h w hwmem
    simp only [decide_eq_true_eq] at hall hne
    exact hne hall
  · intro h
    by_contra hc
    push_neg at hc
    apply h
    rw [eq_comm, List.countP_eq_length]
    intro a ha
    have hna := hc a ha
    simp only [ne_eq, decide_eq_true_eq, not_not] at hna
    simp only [decide_eq_true_eq]
    exact hna

/-! ## Claim theorems -/

/-- Claim C1, counterexample.  The claim says that with all workers busy,
among any `max_tasks + 1` consecutive `SubmitTask` calls at least one returns
false.  With `max_tasks = 1`, a single busy worker and an initially empty
queue, both of the `1 + 1 = 2` consecutive object submissions return true,
because the source admits while `size() <= max_tasks`, i.e. up to
`max_tasks + 1` queued items. -/
theorem submitTask_capacity_counterexample :
    (submitSeqObj
      { lstThread := [{ eThreadAvail := .STATUS_THREAD_EXECUTING }], nMaxTasks := 1 }
      [1, 2]).1 = [true, true] ∧
    AreAnyThreadsWorking
      { lstThread := [{ eThreadAvail := .STATUS_THREAD_EXECUTING }], nMaxTasks := 1 } = true ∧
    GetThreadAvailableCount
      { lstThread := [{ eThreadAvail := .STATUS_THREAD_EXECUTING }], nMaxTasks := 1 } = 0 := by
  decide

/-- Claim C1, amended: among any `max_tasks + 2` consecutive object
submissions (with no dispatch in between) at least one returns false, and a
submission is refused (for either overload) once its queue already holds
`max_tasks + 1` items. -/
theorem submitTask_capacity_amended :
    (∀ (p : CYThreadPool) (objs : List Nat), objs.length = p.nMaxTasks + 2 →
      false ∈ (submitSeqObj p objs).1) ∧
    (∀ (p : CYThreadPool) (o : Nat), p.nMaxTasks + 1 ≤ p.lstTTask.length →
      (SubmitTaskObject p (some o)).1 = false) ∧
    (∀ (p : CYThreadPool) (t : CYThreadTask), p.nMaxTasks + 1 ≤ p.lstTask.length →
      (SubmitTaskCallback p t).1 = false) := by
  refine ⟨?_, ?_, ?_⟩
  · intro p objs hlen
    by_contra hmem
    have hall : ∀ b ∈ (submitSeqObj p objs).1, b = true := by
      intro b hb
      cases b
      · exact absurd hb hmem
      · rfl
    have hne : objs ≠ [] := by
      intro hnil
      rw [hnil] at hlen
      simp at hlen
    have hbound := submitSeq_bound objs p hne hall
    omega
  · intro p o h
    unfold SubmitTaskObject
    split_ifs with hc
    · exact absurd hc.2 (by omega)
    · rfl
  · intro p t h
    unfold SubmitTaskCallback
    split_ifs with hc
    · exact absurd hc.2 (by omega)
    · rfl

/-- Claim C1, witness for the amended theorem at concrete inputs. -/
theorem submitTask_capacity_amended_witness :
    false ∈ (submitSeqObj { nMaxTasks := 0 } [1, 2]).1 ∧
    (SubmitTaskObject { lstTTask := [4], nMaxTasks := 0 } (some 9)).1 = false ∧
    (SubmitTaskCallback { lstTask := [{}], nMaxTasks := 0 } {}).1 = false :=
  ⟨submitTask_capacity_amended.1 { nMaxTasks := 0 } [1, 2] (by decide),
   submitTask_capacity_amended.2.1 { lstTTask := [4], nMaxTasks := 0 } 9 (by decide),
   submitTask_capacity_amended.2.2 { lstTask := [{}], nMaxTasks := 0 } {} (by decide)⟩

/-- Claim C2, counterexample.  Submitting object 1 then object 2 into a pool
with two idle workers and running one dispatcher sweep hands out task 2
before task 1: the dispatch trace is `[2, 1]`, not the submission order
`[1, 2]` — `SubmitTask` pushes to the FRONT of the fresh queue while the
sweep walks the queue front-to-back. -/
theorem dispatch_fifo_counterexample :
    (submitSeqObj { lstThread := [{}, {}] } [1, 2]).1 = [true, true] ∧
    (processObjectTaskList (submitSeqObj { lstThread := [{}, {}] } [1, 2]).2).2.1 = [2, 1] ∧
    (processObjectTaskList (submitSeqObj { lstThread := [{}, {}] } [1, 2]).2).2.1 ≠ [1, 2] := by
  refine ⟨by decide, by decide, by decide⟩

/-- Claim C2, amended: within one dispatcher sweep with enough idle workers
the object dispatch trace is the missed object queue front-to-back followed
by the fresh object queue front-to-back; since a successful `SubmitTask`
pushes the new handle to the FRONT of the fresh queue, tasks dispatched
straight from the fresh queue go in REVERSE submission order (newest first),
not FIFO. -/
theorem dispatch_order_amended :
    (∀ p : CYThreadPool,
      p.lstTTaskMiss.length + p.lstTTask.length ≤ countNotExecuting p.lstThread →
      (processObjectTaskList p).2.1 = p.lstTTaskMiss ++ p.lstTTask) ∧
    (∀ (p : CYThreadPool) (o : Nat), (SubmitTaskObject p (some o)).1 = true →
      (SubmitTaskObject p (some o)).2.lstTTask = o :: p.lstTTask) := by
  constructor
  · intro p h
    have hA : ∀ (a : Nat) (w : CYThread),
        (ChangeThreadPropertiesandResumeObject a w).eThreadAvail =
          CYThreadStatus.STATUS_THREAD_EXECUTING := fun _ _ => rfl
    obtain ⟨h1a, h1b, h1c⟩ := processQueueKeep_all ChangeThreadPropertiesandResumeObject hA
      p.lstTTaskMiss p.lstThread (by omega)
    obtain ⟨h2a, h2b, h2c⟩ := processQueueMove_all ChangeThreadPropertiesandResumeObject hA
      p.lstTTask
      (processQueueKeep ChangeThreadPropertiesandResumeObject p.lstThread p.lstTTaskMiss).1
      (processQueueKeep ChangeThreadPropertiesandResumeObject p.lstThread p.lstTTaskMiss).2.1
      (by omega)
    simp only [processObjectTaskList]
    rw [h1b, h2b]
  · intro p o h
    exact (submitTaskObject_true_state p o h).1

/-- Claim C2, witness for the amended theorem at concrete inputs. -/
theorem dispatch_order_amended_witness :
    (processObjectTaskList
      { lstThread := [{}, {}, {}], lstTTaskMiss := [5], lstTTask := [7, 3] }).2.1 =
      [5] ++ [7, 3] ∧
    (SubmitTaskObject { } (some 4)).2.lstTTask = 4 :: ({ } : CYThreadPool).lstTTask :=
  ⟨dispatch_order_amended.1
      { lstThread := [{}, {}, {}], lstTTaskMiss := [5], lstTTask := [7, 3] } (by decide),
   dispatch_order_amended.2 { } 4 (by decide)⟩

/-- Claim C3, counterexample.  A pool whose missed callback queue
(`m_lstTaskMiss`) is the only non-empty queue still reports
`IsPoolEmpty() == true`: the source checks only `m_lstTask`, `m_lstTTask`
and `m_lstTTaskMiss`. -/
theorem isPoolEmpty_counterexample :
    IsPoolEmpty { lstTaskMiss := [{ funTaskToExecute := some 1 }] } = true ∧
    ({ lstTaskMiss := [{ funTaskToExecute := some 1 }] } : CYThreadPool).lstTaskMiss ≠ [] := by
  decide

/-- Claim C3, amended: `IsPoolEmpty` returns true iff the fresh callback,
fresh object and missed object queues are empty; the missed callback queue is
not consulted. -/
theorem isPoolEmpty_amended (p : CYThreadPool) :
    IsPoolEmpty p = true ↔
      p.lstTask = [] ∧ p.lstTTask = [] ∧ p.lstTTaskMiss = [] := by
  simp [IsPoolEmpty, List.isEmpty_iff, Bool.and_eq_true, and_assoc]

/-- Claim C4, counterexample.  With a single worker in status PURGING,
`AreAnyThreadsWorking` returns true although the worker count equals the
available count plus the PAUSING count (1 = 1 + 0), so the claimed
equivalence fails: a worker that is only PURGING does make `any_working()`
true in the source. -/
theorem anyThreadsWorking_counterexample :
    AreAnyThreadsWorking { lstThread := [{ eThreadAvail := .STATUS_THREAD_PURGING }] } = true ∧
    ({ lstThread := [{ eThreadAvail := .STATUS_THREAD_PURGING }] } : CYThreadPool).lstThread.length =
      GetThreadAvailableCount { lstThread := [{ eThreadAvail := .STATUS_THREAD_PURGING }] } +
      GetSpecificThreadStatusCount { lstThread := [{ eThreadAvail := .STATUS_THREAD_PURGING }] }
        CYThreadStatus.STATUS_THREAD_PAUSING := by
  decide

/-- Claim C4, amended: `AreAnyThreadsWorking` returns true iff the worker
count differs from the number of workers with status NOT_EXECUTING — i.e.
iff some worker is EXECUTING, PURGING or PAUSING. -/
theorem anyThreadsWorking_amended (p : CYThreadPool) :
    AreAnyThreadsWorking p = true ↔
      p.lstThread.length ≠
        GetSpecificThreadStatusCount p CYThreadStatus.STATUS_THREAD_NOT_EXECUTING :=
  any_not_executing_iff p.lstThread

/-- Claim C5, counterexample.  `PauseAllWorkingThreads` does not set the
task-pool lock: after pausing a pool with one busy worker and a clear lock,
the lock is still clear and a subsequent `SubmitTask` returns true. -/
theorem pause_lock_counterexample :
    (PauseAllWorkingThreads
      { lstThread := [{ eThreadAvail := .STATUS_THREAD_EXECUTING }] }).bTaskPoolLock = false ∧
    (SubmitTaskObject
      (PauseAllWorkingThreads { lstThread := [{ eThreadAvail := .STATUS_THREAD_EXECUTING }] })
      (some 1)).1 = true := by
  decide

/-- Claim C5, amended: only `SuspendAllWorkingThreads` sets
`submission_locked = true` (after which every `SubmitTask` returns false);
`PauseAllWorkingThreads` merely suspends the non-idle workers and leaves the
lock unchanged. -/
theorem pause_suspend_lock_amended (p : CYThreadPool) :
    (SuspendAllWorkingThreads p).bTaskPoolLock = true ∧
    (∀ obj, (SubmitTaskObject (SuspendAllWorkingThreads p) obj).1 = false) ∧
    (∀ t, (SubmitTaskCallback (SuspendAllWorkingThreads p) t).1 = false) ∧
    (PauseAllWorkingThreads p).bTaskPoolLock = p.bTaskPoolLock := by
  refine ⟨rfl, ?_, ?_, rfl⟩
  · intro obj
    cases obj with
    | none => rfl
    | some o =>
      unfold SubmitTaskObject
      split_ifs with hc
      · exact absurd hc.1 (by simp [SuspendAllWorkingThreads])
      · rfl
  · intro t
    unfold SubmitTaskCallback
    split_ifs with hc
    · exact absurd hc.1 (by simp [SuspendAllWorkingThreads])
    · rfl

/-- Claim C6, confirmed: `ResumeAllWorkingThreads` leaves the task-pool lock,
the queue contents and `max_tasks` unchanged, and its only effect on each
worker is to clear the suspended flag of every worker whose status differs
from NOT_EXECUTING (all other worker fields, including the status, are
untouched). -/
theorem resumeAll_frame_confirmed (p : CYThreadPool) :
    (ResumeAllWorkingThreads p).bTaskPoolLock = p.bTaskPoolLock ∧
    (ResumeAllWorkingThreads p).nMaxTasks = p.nMaxTasks ∧
    (ResumeAllWorkingThreads p).lstTask = p.lstTask ∧
    (ResumeAllWorkingThreads p).lstTaskMiss = p.lstTaskMiss ∧
    (ResumeAllWorkingThreads p).lstTTask = p.lstTTask ∧
    (ResumeAllWorkingThreads p).lstTTaskMiss = p.lstTTaskMiss ∧
    (ResumeAllWorkingThreads p).lstThread = p.lstThread.map fun w =>
      { w with bSuspended :=
          if w.eThreadAvail = CYThreadStatus.STATUS_THREAD_NOT_EXECUTING then w.bSuspended
          else false } := by
  refine ⟨rfl, rfl, rfl, rfl, rfl, rfl, ?_⟩
  show p.lstThread.map _ = p.lstThread.map _
  have hfun : (fun w : CYThread =>
      if w.eThreadAvail ≠ CYThreadStatus.STATUS_THREAD_NOT_EXECUTING then ResumeThread w
      else w) = fun w : CYThread =>
      { w with bSuspended :=
          if w.eThreadAvail = CYThreadStatus.STATUS_THREAD_NOT_EXECUTING then w.bSuspended
          else false } := by
    funext w
    by_cases hw : w.eThreadAvail = CYThreadStatus.STATUS_THREAD_NOT_EXECUTING
    · rw [if_neg (not_not_intro hw), if_pos hw]
    · rw [if_pos hw, if_neg hw]
      rfl
  rw [hfun]

/-- Claim C7, counterexample.  The worker class the pool actually
instantiates is `CYThread` (CYThreadPool.cpp builds `CYThread` workers), and
its `ChangeThreadsExecutionProperties` maps LOW to `THREAD_PRIORITY_LOWEST`
(-2) on Windows, not below-normal (-1); on Linux it derives the value from
`sched_get_priority_min` / `_max` of the current policy (both 0 for
SCHED_OTHER), so HIGH becomes -1, not the claimed 5. -/
theorem priority_table_counterexample :
    windowsPriorityCYThread CYThreadPriority.PRIORITY_THREAD_LOW ≠
      specWindowsPriorityTable CYThreadPriority.PRIORITY_THREAD_LOW ∧
    linuxPriorityCYThread 0 0 CYThreadPriority.PRIORITY_THREAD_HIGH ≠
      specLinuxPriorityTable CYThreadPriority.PRIORITY_THREAD_HIGH := by
  decide

/-- Claim C7, amended: the claimed fixed table (Windows LOW -> below-normal,
..., Linux SCHED_OTHER {0,1,5,10,20}) is exactly what the duplicate
`CYThreadWindows::ChangeThreadsExecutionProperties` implements; the
`CYThread` worker the pool creates agrees with the Windows table on every
priority except LOW, which it maps to `THREAD_PRIORITY_LOWEST`. -/
theorem priority_table_amended (pr : CYThreadPriority) :
    windowsPriorityCYThreadWindows pr = specWindowsPriorityTable pr ∧
    linuxPriorityCYThreadWindows pr = specLinuxPriorityTable pr ∧
    (windowsPriorityCYThread pr = specWindowsPriorityTable pr ↔
      pr ≠ CYThreadPriority.PRIORITY_THREAD_LOW) := by
  cases pr <;> exact ⟨by decide, by decide, by decide⟩

/-- Claim C8, confirmed: `CreateTasksProcessorAffinity` sets the affinity
mask to `1u << ideal_core` exactly when `0 <= ideal_core < logical CPU
count` and to 0 otherwise (negative core or core at or beyond the CPU
count); no other field of the properties object changes.  The `% 2 ^ 32`
is the `uint32_t` representation of the stored mask. -/
theorem createTasksProcessorAffinity_confirmed (nMaxCores : Int)
    (props : CYThreadExecutionProps) :
    (CreateTasksProcessorAffinity nMaxCores props).nTasksProcessAffinityMask =
      (if 0 ≤ props.nTasksIdealCore ∧ props.nTasksIdealCore < nMaxCores then
        (1 <<< props.nTasksIdealCore.toNat) % 2 ^ 32
      else 0) ∧
    (CreateTasksProcessorAffinity nMaxCores props).eTasksProcessorAffinity =
      props.eTasksProcessorAffinity ∧
    (CreateTasksProcessorAffinity nMaxCores props).eTasksPriority = props.eTasksPriority ∧
    (CreateTasksProcessorAffinity nMaxCores props).nTasksIdealCore =
      props.nTasksIdealCore := by
  refine ⟨?_, rfl, rfl, rfl⟩
  show GetProcessorAffinity nMaxCores props.nTasksIdealCore = _
  unfold GetProcessorAffinity
  split_ifs <;> first | rfl | omega

/-- Claim C9: the spec requires a task body that throws to be caught and
contained by the worker (status to PURGING, loop continues), but
`CYThread::ExecuteThread` wraps no handler around
`m_pThreadsObject->TaskToExecute()`: evaluating one loop iteration on a
worker that was handed an object whose body throws, the error escapes the
iteration (in C++, out of the `noexcept` loop, aborting the process) and the
worker never reaches PURGING. -/
theorem executeThread_exception_escapes :
    executeIteration (fun _ => Except.error ()) (fun _ => Except.ok ())
      (ChangeThreadPropertiesandResumeObject 7 {}) = Except.error () := by
  rfl

/-- Claim C10, confirmed: every per-object pool operation is a benign no-op
on a null `ICYIThreadableObject*` handle: `SubmitTask` returns false with the
pool unchanged, `GetWorkingThreadStatus` returns `STATUS_THREAD_NONE`,
`WaitForSingleObject` returns 0 immediately, and `PauseWorkingThread`
changes no worker state. -/
theorem null_object_noop_confirmed (p : CYThreadPool) (t fuel : Nat)
    (schedule : Nat → List CYThread) (elapsedAt : Nat → Nat) :
    SubmitTaskObject p none = (false, p) ∧
    GetWorkingThreadStatus p none = CYThreadStatus.STATUS_THREAD_NONE ∧
    WaitForSingleObjectPool schedule elapsedAt none t fuel = some 0 ∧
    PauseWorkingThread p none = p :=
  ⟨rfl, rfl, rfl, rfl⟩
